import Mathlib

/-!
Shallow embedding of the training script (src/training.py) and proofs of the
specification's claims about it.

The script fine-tunes an image classifier: `initialize_model` adapts a
pretrained backbone, `train_model` runs the epoch loop (train phase then
validation phase, per-batch forward/backward/optimizer-step, per-epoch metric
recording, scheduler stepping and best-checkpoint persistence), and the
top-level code pickles the label map before training.

The numeric backend (forward pass, loss, argmax-correct count, optimizer and
scheduler updates) is opaque library code; it is abstracted by an environment
of functions over abstract weight and scheduler-state types, so every theorem
below quantifies over what the network actually computes.  Side effects
(metric recording, scheduler stepping, gradient bookkeeping, checkpoint
writes) are reified as an event trace in program order.  Accuracies, losses
and learning rates are rationals.  The division by the dataset size in the
epoch metrics is fallible (Python raises `ZeroDivisionError` on an empty
dataset), hence the loop returns an `Option`.
-/

/-- The two phases of an epoch, `for phase in ['train', 'val']`. -/
inductive Phase where
  | train
  | val
deriving DecidableEq

/-- One mini-batch as the loop observes it: only its sample count
`inputs.size(0)` matters to the control logic. -/
structure Batch where
  size : Nat
deriving DecidableEq

/-- Side effects of the loop, in program order.  `forward` carries the
gradient-tracking flag of `torch.set_grad_enabled`; `record` is
`writer.add_scalar (tag, value, step)`; `save` is `torch.save` of the current
weights to the checkpoint path. -/
inductive Event (W : Type) where
  | forward (gradEnabled : Bool)
  | backward
  | optStep
  | schedStep
  | record (tag : String) (value : ℚ) (step : Nat)
  | save (w : W)
deriving DecidableEq

/-- The opaque numeric backend: `criterion w b` is `loss.item()` for batch `b`
under weights `w`; `corrects w b` is `torch.sum(preds == labels)`; `optStep`
is the weight update performed by `loss.backward(); optimizer.step()`;
`schedStep` and `getLastLR` are the scheduler's `step()` and
`get_last_lr()[0]`. -/
structure Env (W S : Type) where
  criterion : W → Batch → ℚ
  corrects : W → Batch → Nat
  optStep : W → Batch → W
  schedStep : S → S
  getLastLR : S → ℚ

/-- `dataloaders`: the batches each phase's loader yields this epoch, plus
`len(dataloaders[phase].dataset)` for each phase. -/
structure Loaders where
  trainBatches : List Batch
  valBatches : List Batch
  trainSize : Nat
  valSize : Nat
deriving DecidableEq

/-- `dataloaders[phase]`. -/
def Loaders.batches (L : Loaders) : Phase → List Batch
  | Phase.train => L.trainBatches
  | Phase.val => L.valBatches

/-- `len(dataloaders[phase].dataset)`. -/
def Loaders.dsize (L : Loaders) : Phase → Nat
  | Phase.train => L.trainSize
  | Phase.val => L.valSize

/-- Result of the inner `for i, data in enumerate(dataloaders[phase])` loop:
final weights, `running_loss`, `running_corrects`, and the emitted events. -/
structure PhaseResult (W : Type) where
  weights : W
  running_loss : ℚ
  running_corrects : Nat
  events : List (Event W)
deriving DecidableEq

/-- One iteration of the batch loop: forward under
`set_grad_enabled(phase == 'train')`, then backward and optimizer step only
in the train phase.  Returns the new weights, `loss.item()`,
`torch.sum(preds == labels)` and the events emitted. -/
def runBatch {W S : Type} (env : Env W S) (phase : Phase) (w : W) (b : Batch) :
    W × ℚ × Nat × List (Event W) :=
  match phase with
  | Phase.train =>
      (env.optStep w b, env.criterion w b, env.corrects w b,
        [Event.forward true, Event.backward, Event.optStep])
  | Phase.val =>
      (w, env.criterion w b, env.corrects w b, [Event.forward false])

/-- The whole batch loop of one phase, accumulating
`running_loss += loss.item() * inputs.size(0)` and
`running_corrects += torch.sum(preds == labels)`. -/
def runBatches {W S : Type} (env : Env W S) (phase : Phase) (w : W) :
    List Batch → PhaseResult W
  | [] => ⟨w, 0, 0, []⟩
  | b :: bs =>
      let step := runBatch env phase w b
      let rest := runBatches env phase step.1 bs
      ⟨rest.weights, step.2.1 * (b.size : ℚ) + rest.running_loss,
        step.2.2.1 + rest.running_corrects, step.2.2.2 ++ rest.events⟩

/-- `epoch_loss = running_loss / len(dataset)` and
`epoch_acc = running_corrects / len(dataset)`.  Python raises
`ZeroDivisionError` when the dataset is empty; that failure is `none`. -/
def epoch_metrics (running_loss : ℚ) (running_corrects : Nat) (dsize : Nat) :
    Option (ℚ × ℚ) :=
  if dsize = 0 then none
  else some (running_loss / (dsize : ℚ), (running_corrects : ℚ) / (dsize : ℚ))

/-- The mutable state of `train_model` across phases: current weights and
scheduler state, `best_model_wts`, `best_acc`, `val_acc_history`, the event
trace so far, and what this run has written to the checkpoint file
(`none` until the first `torch.save`). -/
structure LoopState (W S : Type) where
  weights : W
  sched : S
  bestWts : W
  bestAcc : ℚ
  valAccHistory : List ℚ
  events : List (Event W)
  disk : Option W
deriving DecidableEq

/-- The body of `for phase in ['train', 'val']` for one phase: run the batch
loop, compute the epoch metrics, then either (train) record the pre-step
learning rate, step the scheduler and record the training metrics, or (val)
record the validation metrics and, when `epoch_acc > best_acc`, update the
best tracker and persist the weights. -/
def runPhaseStep {W S : Type} (env : Env W S) (L : Loaders) (epoch : Nat)
    (phase : Phase) (st : LoopState W S) : Option (LoopState W S) :=
  let r := runBatches env phase st.weights (L.batches phase)
  match epoch_metrics r.running_loss r.running_corrects (L.dsize phase) with
  | none => none
  | some (epoch_loss, epoch_acc) =>
    match phase with
    | Phase.train =>
        some { st with
          weights := r.weights
          sched := env.schedStep st.sched
          events := st.events ++ r.events ++
            [Event.record "lr" (env.getLastLR st.sched) (epoch + 1),
             Event.schedStep,
             Event.record "training loss" epoch_loss (epoch + 1),
             Event.record "training acc" epoch_acc (epoch + 1)] }
    | Phase.val =>
        let st1 : LoopState W S := { st with
          weights := r.weights
          events := st.events ++ r.events ++
            [Event.record "valid loss" epoch_loss (epoch + 1),
             Event.record "valid acc" epoch_acc (epoch + 1)] }
        let st2 : LoopState W S :=
          if st.bestAcc < epoch_acc then
            { st1 with
              bestAcc := epoch_acc
              bestWts := r.weights
              events := st1.events ++ [Event.save r.weights]
              disk := some r.weights }
          else st1
        some { st2 with valAccHistory := st2.valAccHistory ++ [epoch_acc] }

/-- One epoch: the train phase followed by the validation phase. -/
def runEpoch {W S : Type} (env : Env W S) (L : Loaders) (epoch : Nat)
    (st : LoopState W S) : Option (LoopState W S) :=
  match runPhaseStep env L epoch Phase.train st with
  | none => none
  | some st1 => runPhaseStep env L epoch Phase.val st1

/-- `for epoch in range(n_epochs)`, starting at epoch index `epoch` with `n`
epochs left. -/
def runEpochs {W S : Type} (env : Env W S) (L : Loaders) :
    Nat → Nat → LoopState W S → Option (LoopState W S)
  | _, 0, st => some st
  | epoch, n + 1, st =>
      match runEpoch env L epoch st with
      | none => none
      | some st1 => runEpochs env L (epoch + 1) n st1

/-- The state `train_model` sets up before the epoch loop:
`best_model_wts = copy.deepcopy(model.state_dict())`, `best_acc = 0.0`,
empty `val_acc_history`, no events, nothing written to disk yet. -/
def initState {W S : Type} (model : W) (sched : S) : LoopState W S :=
  { weights := model, sched := sched, bestWts := model, bestAcc := 0,
    valAccHistory := [], events := [], disk := none }

/-- `train_model` down to its final loop state. -/
def trainLoop {W S : Type} (env : Env W S) (L : Loaders) (model : W) (sched : S)
    (n_epochs : Nat) : Option (LoopState W S) :=
  runEpochs env L 0 n_epochs (initState model sched)

/-- `train_model`: returns the final in-memory `model` (not
`best_model_wts`). -/
def train_model {W S : Type} (env : Env W S) (L : Loaders) (model : W) (sched : S)
    (n_epochs : Nat) : Option W :=
  Option.map (fun st => st.weights) (trainLoop env L model sched n_epochs)

/-- One backbone parameter tensor as the adapter sees it: only its
`requires_grad` flag matters. -/
structure Param where
  requires_grad : Bool
deriving DecidableEq

/-- A `nn.Linear` layer: widths plus the `requires_grad` flag of its
parameters. -/
structure Linear where
  in_features : Nat
  out_features : Nat
  requires_grad : Bool
deriving DecidableEq

/-- The network as the adapter sees it: the backbone parameters (everything
before `model.fc`) and the final classification layer `model.fc`. -/
structure Model where
  backbone : List Param
  fc : Linear
deriving DecidableEq

/-- `nn.Linear(in_features, out_features)`: a fresh layer whose parameters
track gradients by default. -/
def nnLinear (in_features out_features : Nat) : Linear :=
  { in_features := in_features, out_features := out_features,
    requires_grad := true }

/-- `set_parameter_requires_grad`: when `feature_extracting`, clears
`requires_grad` on every parameter of the model (`model.parameters()` covers
the backbone and the current `model.fc`). -/
def set_parameter_requires_grad (model : Model) (feature_extracting : Bool) :
    Model :=
  if feature_extracting then
    { backbone := model.backbone.map (fun _ => { requires_grad := false }),
      fc := { model.fc with requires_grad := false } }
  else model

/-- `initialize_model`: build the backbone (`current_model` abstracts the
pretrained-network constructor, applied to `use_pretrained`), freeze it when
`feat_extract`, read `num_ftrs = model.fc.in_features`, then replace
`model.fc` with `nn.Linear(num_ftrs, n_classes)`. -/
def initialize_model (current_model : Bool → Model) (n_classes : Nat)
    (feat_extract : Bool) (use_pretrained : Bool) : Model :=
  let model := current_model use_pretrained
  let model1 := set_parameter_requires_grad model feat_extract
  let num_ftrs := model1.fc.in_features
  { model1 with fc := nnLinear num_ftrs n_classes }

/-- Modelled from the spec: torchvision's `ImageFolder` (the Dataset
Provider, external library code) derives the class set from the split
directory's subdirectory names, assigns indices in alphabetical order, and
exposes the mapping as `class_to_idx`.  Here the mapping is the association
list pairing each sorted class name with its position. -/
def class_to_idx (classNames : List String) : List (String × Nat) :=
  let classes := classNames.mergeSort (fun a b => a ≤ b)
  classes.zip (List.range classes.length)

/-- Side effects of the top-level script around the training call. -/
inductive TopEffect where
  | savePickle (filename : String)
  | trainCall
deriving DecidableEq

/-- `dictionary_name = 'dict'`. -/
def dictionary_name : String := "dict"

/-- `save_obj`: pickles the object to `dict_name + '.pkl'`. -/
def save_obj (dict_name : String) : TopEffect :=
  TopEffect.savePickle (dict_name ++ ".pkl")

/-- The top-level script's effect order: it pickles the validation split's
`class_to_idx` once (line 155) and only afterwards calls `train_model`
(line 186). -/
def script_trace : List TopEffect :=
  [save_obj dictionary_name, TopEffect.trainCall]

/-- Is this event a checkpoint write (`torch.save`)? -/
def Event.isSave {W : Type} : Event W → Bool
  | Event.save _ => true
  | _ => false

/-- Is this event a scheduler step? -/
def Event.isSchedStep {W : Type} : Event W → Bool
  | Event.schedStep => true
  | _ => false

/-- Number of checkpoint writes in a trace. -/
def countSaves {W : Type} (evs : List (Event W)) : Nat :=
  (evs.filter Event.isSave).length

/-- Number of scheduler steps in a trace. -/
def countSched {W : Type} (evs : List (Event W)) : Nat :=
  (evs.filter Event.isSchedStep).length

/-- The values recorded under the `lr` tag, in order. -/
def lrValues {W : Type} (evs : List (Event W)) : List ℚ :=
  evs.filterMap (fun e =>
    match e with
    | Event.record tag v _ => if tag = "lr" then some v else none
    | _ => none)

/-- The events a batch may emit in a given phase: a forward pass whose
gradient flag equals `phase == 'train'`, and backward/optimizer-step only in
the train phase. -/
def batchEventOK {W : Type} (phase : Phase) : Event W → Bool
  | Event.forward g => g == decide (phase = Phase.train)
  | Event.backward => decide (phase = Phase.train)
  | Event.optStep => decide (phase = Phase.train)
  | _ => false

/-- The Best-State Tracker invariant: `best_acc` is the maximum validation
accuracy observed so far (with floor 0, its initial value), and whatever this
run has persisted to disk is exactly the tracked best snapshot. -/
def trackerInv {W S : Type} (st : LoopState W S) : Prop :=
  st.bestAcc = st.valAccHistory.foldl max 0 ∧
  (st.disk = none ∨ st.disk = some st.bestWts)

/-- Is this event a forward pass? -/
def Event.isForward {W : Type} : Event W → Bool
  | Event.forward _ => true
  | _ => false

/-- A concrete dataset shape for instantiating the theorems: one train batch
and one validation batch of two samples each, dataset sizes 2 and 2. -/
def loaders0 : Loaders := ⟨[⟨2⟩], [⟨2⟩], 2, 2⟩

/-- A concrete backend over `Nat` weights and a rational learning rate:
every loss is 1, every prediction is correct, each optimizer step bumps the
weights, and the scheduler halves the rate. -/
def envA : Env Nat ℚ :=
  { criterion := fun _ _ => 1, corrects := fun _ b => b.size,
    optStep := fun w _ => w + 1, schedStep := fun s => s / 2,
    getLastLR := fun s => s }

/-- Like `envA` but every prediction is wrong: validation accuracy is 0. -/
def env0 : Env Nat ℚ :=
  { criterion := fun _ _ => 1, corrects := fun _ _ => 0,
    optStep := fun w _ => w + 1, schedStep := fun s => s / 2,
    getLastLR := fun s => s }

/-- Like `envA` but accuracy collapses once the weights pass 1: the first
epoch is the best one and later epochs are worse. -/
def envB : Env Nat ℚ :=
  { criterion := fun _ _ => 1,
    corrects := fun w b => if w ≤ 1 then b.size else 0,
    optStep := fun w _ => w + 1, schedStep := fun s => s / 2,
    getLastLR := fun s => s }

/-- The loop state after one epoch of `envA` from weights 0 and rate 1. -/
def stA : LoopState Nat ℚ :=
  (runEpoch envA loaders0 0 (initState 0 1)).getD (initState 0 1)

/-- The loop state after two epochs of `envB` from weights 0 and rate 1. -/
def stB : LoopState Nat ℚ :=
  (trainLoop envB loaders0 0 1 2).getD (initState 0 1)

/-- The loop state after just the train phase of `envA`'s first epoch. -/
def stT : LoopState Nat ℚ :=
  (runPhaseStep envA loaders0 0 Phase.train (initState 0 1)).getD
    (initState 0 1)

lemma runBatch_loss {W S : Type} (env : Env W S) (phase : Phase) (w : W)
    (b : Batch) : (runBatch env phase w b).2.1 = env.criterion w b := by
  cases phase <;> rfl

lemma runBatch_corrects {W S : Type} (env : Env W S) (phase : Phase) (w : W)
    (b : Batch) : (runBatch env phase w b).2.2.1 = env.corrects w b := by
  cases phase <;> rfl

lemma runBatches_weights_val {W S : Type} (env : Env W S) (w : W)
    (bs : List Batch) : (runBatches env Phase.val w bs).weights = w := by
  induction bs generalizing w with
  | nil => rfl
  | cons b bs ih => simp [runBatches, runBatch, ih]

lemma runBatches_weights_train {W S : Type} (env : Env W S) (w : W)
    (bs : List Batch) :
    (runBatches env Phase.train w bs).weights = bs.foldl env.optStep w := by
  induction bs generalizing w with
  | nil => rfl
  | cons b bs ih => simp [runBatches, runBatch, ih, List.foldl_cons]

lemma runBatches_events_ok {W S : Type} (env : Env W S) (phase : Phase) (w : W)
    (bs : List Batch) :
    (runBatches env phase w bs).events.all (batchEventOK phase) = true := by
  induction bs generalizing w with
  | nil => rfl
  | cons b bs ih =>
      cases phase <;>
        simp_all [runBatches, runBatch, batchEventOK, List.all_append] <;>
        exact ih _

lemma runBatches_forward_count {W S : Type} (env : Env W S) (phase : Phase)
    (w : W) (bs : List Batch) :
    ((runBatches env phase w bs).events.filter Event.isForward).length =
      bs.length := by
  induction bs generalizing w with
  | nil => rfl
  | cons b bs ih =>
      cases phase <;>
        simp_all [runBatches, runBatch, Event.isForward, List.filter_append]

lemma countSaves_append {W : Type} (xs ys : List (Event W)) :
    countSaves (xs ++ ys) = countSaves xs + countSaves ys := by
  simp [countSaves, List.filter_append]

lemma countSched_append {W : Type} (xs ys : List (Event W)) :
    countSched (xs ++ ys) = countSched xs + countSched ys := by
  simp [countSched, List.filter_append]

lemma countSaves_batches {W S : Type} (env : Env W S) (phase : Phase) (w : W)
    (bs : List Batch) : countSaves (runBatches env phase w bs).events = 0 := by
  induction bs generalizing w with
  | nil => rfl
  | cons b bs ih =>
      cases phase <;>
        simp_all [runBatches, runBatch, countSaves_append, countSaves,
          Event.isSave] <;>
        exact ih _

lemma countSched_batches {W S : Type} (env : Env W S) (phase : Phase) (w : W)
    (bs : List Batch) : countSched (runBatches env phase w bs).events = 0 := by
  induction bs generalizing w with
  | nil => rfl
  | cons b bs ih =>
      cases phase <;>
        simp_all [runBatches, runBatch, countSched_append, countSched,
          Event.isSchedStep] <;>
        exact ih _

lemma filter_isSave_batches {W S : Type} (env : Env W S) (phase : Phase)
    (w : W) (bs : List Batch) :
    (runBatches env phase w bs).events.filter Event.isSave = [] := by
  induction bs generalizing w with
  | nil => rfl
  | cons b bs ih =>
      cases phase <;>
        simp_all [runBatches, runBatch, List.filter_append, Event.isSave] <;>
        exact ih _

lemma filter_isSchedStep_batches {W S : Type} (env : Env W S) (phase : Phase)
    (w : W) (bs : List Batch) :
    (runBatches env phase w bs).events.filter Event.isSchedStep = [] := by
  induction bs generalizing w with
  | nil => rfl
  | cons b bs ih =>
      cases phase <;>
        simp_all [runBatches, runBatch, List.filter_append,
          Event.isSchedStep] <;>
        exact ih _

lemma runBatches_loss_nonneg {W S : Type} (env : Env W S) (phase : Phase)
    (w : W) (bs : List Batch) (hloss : ∀ w b, 0 ≤ env.criterion w b) :
    0 ≤ (runBatches env phase w bs).running_loss := by
  induction bs generalizing w with
  | nil => simp [runBatches]
  | cons b bs ih =>
      simp only [runBatches]
      exact add_nonneg
        (mul_nonneg (by rw [runBatch_loss]; exact hloss _ _)
          (by positivity)) (ih _)

lemma runBatches_corrects_le {W S : Type} (env : Env W S) (phase : Phase)
    (w : W) (bs : List Batch) (hcorr : ∀ w b, env.corrects w b ≤ b.size) :
    (runBatches env phase w bs).running_corrects ≤
      (bs.map Batch.size).sum := by
  induction bs generalizing w with
  | nil => simp [runBatches]
  | cons b bs ih =>
      simp only [runBatches, List.map_cons, List.sum_cons]
      exact Nat.add_le_add (by rw [runBatch_corrects]; exact hcorr _ _) (ih _)

lemma runPhaseStep_train_none {W S : Type} (env : Env W S) (L : Loaders)
    (epoch : Nat) (st : LoopState W S) (h : L.trainSize = 0) :
    runPhaseStep env L epoch Phase.train st = none := by
  simp [runPhaseStep, Loaders.batches, Loaders.dsize, epoch_metrics, h]

lemma runPhaseStep_val_none {W S : Type} (env : Env W S) (L : Loaders)
    (epoch : Nat) (st : LoopState W S) (h : L.valSize = 0) :
    runPhaseStep env L epoch Phase.val st = none := by
  simp [runPhaseStep, Loaders.batches, Loaders.dsize, epoch_metrics, h]

lemma runPhaseStep_train_char {W S : Type} (env : Env W S) (L : Loaders)
    (epoch : Nat) (st : LoopState W S) (h : L.trainSize ≠ 0) :
    runPhaseStep env L epoch Phase.train st = some
      { weights := (runBatches env Phase.train st.weights L.trainBatches).weights,
        sched := env.schedStep st.sched,
        bestWts := st.bestWts,
        bestAcc := st.bestAcc,
        valAccHistory := st.valAccHistory,
        events := st.events ++
          (runBatches env Phase.train st.weights L.trainBatches).events ++
          [Event.record "lr" (env.getLastLR st.sched) (epoch + 1),
           Event.schedStep,
           Event.record "training loss"
             ((runBatches env Phase.train st.weights L.trainBatches).running_loss /
               (L.trainSize : ℚ)) (epoch + 1),
           Event.record "training acc"
             (((runBatches env Phase.train st.weights L.trainBatches).running_corrects : ℚ) /
               (L.trainSize : ℚ)) (epoch + 1)],
        disk := st.disk } := by
  simp [runPhaseStep, Loaders.batches, Loaders.dsize, epoch_metrics, h]

lemma runPhaseStep_val_char {W S : Type} (env : Env W S) (L : Loaders)
    (epoch : Nat) (st : LoopState W S) (h : L.valSize ≠ 0) :
    runPhaseStep env L epoch Phase.val st = some
      { weights := (runBatches env Phase.val st.weights L.valBatches).weights,
        sched := st.sched,
        bestWts :=
          if st.bestAcc <
              ((runBatches env Phase.val st.weights L.valBatches).running_corrects : ℚ) /
                (L.valSize : ℚ) then
            (runBatches env Phase.val st.weights L.valBatches).weights
          else st.bestWts,
        bestAcc :=
          if st.bestAcc <
              ((runBatches env Phase.val st.weights L.valBatches).running_corrects : ℚ) /
                (L.valSize : ℚ) then
            ((runBatches env Phase.val st.weights L.valBatches).running_corrects : ℚ) /
              (L.valSize : ℚ)
          else st.bestAcc,
        valAccHistory := st.valAccHistory ++
          [((runBatches env Phase.val st.weights L.valBatches).running_corrects : ℚ) /
            (L.valSize : ℚ)],
        events := (st.events ++
          (runBatches env Phase.val st.weights L.valBatches).events ++
          [Event.record "valid loss"
             ((runBatches env Phase.val st.weights L.valBatches).running_loss /
               (L.valSize : ℚ)) (epoch + 1),
           Event.record "valid acc"
             (((runBatches env Phase.val st.weights L.valBatches).running_corrects : ℚ) /
               (L.valSize : ℚ)) (epoch + 1)]) ++
          (if st.bestAcc <
              ((runBatches env Phase.val st.weights L.valBatches).running_corrects : ℚ) /
                (L.valSize : ℚ) then
            [Event.save (runBatches env Phase.val st.weights L.valBatches).weights]
          else []),
        disk :=
          if st.bestAcc <
              ((runBatches env Phase.val st.weights L.valBatches).running_corrects : ℚ) /
                (L.valSize : ℚ) then
            some (runBatches env Phase.val st.weights L.valBatches).weights
          else st.disk } := by
  by_cases hlt : st.bestAcc <
      ((runBatches env Phase.val st.weights L.valBatches).running_corrects : ℚ) /
        (L.valSize : ℚ) <;>
    simp [runPhaseStep, Loaders.batches, Loaders.dsize, epoch_metrics, h, hlt]

lemma runEpoch_eq_bind {W S : Type} (env : Env W S) (L : Loaders) (epoch : Nat)
    (st : LoopState W S) :
    runEpoch env L epoch st =
      (runPhaseStep env L epoch Phase.train st).bind
        (runPhaseStep env L epoch Phase.val) := by
  cases h : runPhaseStep env L epoch Phase.train st <;> simp [runEpoch, h]

lemma runEpochs_succ {W S : Type} (env : Env W S) (L : Loaders)
    (epoch n : Nat) (st : LoopState W S) :
    runEpochs env L epoch (n + 1) st =
      (runEpoch env L epoch st).bind (runEpochs env L (epoch + 1) n) := by
  cases h : runEpoch env L epoch st <;> simp [runEpochs, h]

lemma runEpoch_tracker {W S : Type} (env : Env W S) (L : Loaders) (epoch : Nat)
    (st st' : LoopState W S) (h : runEpoch env L epoch st = some st') :
    st.bestAcc ≤ st'.bestAcc ∧ (trackerInv st → trackerInv st') ∧
    (st'.disk ≠ st.disk →
      st'.disk = some st'.bestWts ∧ st.bestAcc < st'.bestAcc) := by
  by_cases hT : L.trainSize = 0
  · rw [runEpoch, runPhaseStep_train_none env L epoch st hT] at h
    exact absurd h (by simp)
  by_cases hV : L.valSize = 0
  · rw [runEpoch_eq_bind, runPhaseStep_train_char env L epoch st hT,
      Option.some_bind, runPhaseStep_val_none env L epoch _ hV] at h
    exact absurd h (by simp)
  rw [runEpoch_eq_bind, runPhaseStep_train_char env L epoch st hT,
    Option.some_bind, runPhaseStep_val_char env L epoch _ hV] at h
  obtain rfl := Option.some.inj h
  by_cases hlt : st.bestAcc <
      ((runBatches env Phase.val
          (runBatches env Phase.train st.weights L.trainBatches).weights
          L.valBatches).running_corrects : ℚ) / (L.valSize : ℚ)
  · refine ⟨le_of_lt (by simp [hlt]), ?_, ?_⟩
    · rintro ⟨hfold, -⟩
      constructor
      · simp [trackerInv, hlt, List.foldl_append, ← hfold,
          max_eq_right (le_of_lt hlt)]
      · simp [hlt]
    · intro _
      exact ⟨by simp [hlt], by simp [hlt]⟩
  · refine ⟨by simp [hlt], ?_, ?_⟩
    · rintro ⟨hfold, hdisk⟩
      constructor
      · simp [hlt, List.foldl_append, ← hfold,
          max_eq_left (le_of_not_lt hlt)]
      · simpa [hlt] using hdisk
    · intro hne
      exact absurd (by simp [hlt]) hne

lemma runEpochs_tracker {W S : Type} (env : Env W S) (L : Loaders) :
    ∀ (n epoch : Nat) (st st' : LoopState W S),
      runEpochs env L epoch n st = some st' → trackerInv st →
      trackerInv st' ∧ st.bestAcc ≤ st'.bestAcc
  | 0, _, st, st', h, hinv => by
      obtain rfl := Option.some.inj h
      exact ⟨hinv, le_refl _⟩
  | n + 1, epoch, st, st', h, hinv => by
      rw [runEpochs_succ] at h
      cases heq : runEpoch env L epoch st with
      | none => rw [heq] at h; exact absurd h (by simp)
      | some st1 =>
          rw [heq, Option.some_bind] at h
          obtain ⟨hmono, hpres, -⟩ := runEpoch_tracker env L epoch st st1 heq
          obtain ⟨hinv', hmono'⟩ :=
            runEpochs_tracker env L n (epoch + 1) st1 st' h (hpres hinv)
          exact ⟨hinv', le_trans hmono hmono'⟩

lemma trackerInv_initState {W S : Type} (model : W) (sched : S) :
    trackerInv (initState model sched) := by
  constructor <;> simp [initState, trackerInv]

lemma trainLoop_one_epoch {W S : Type} (env : Env W S) (L : Loaders)
    (model : W) (sched : S) (st : LoopState W S)
    (h : trainLoop env L model sched 1 = some st) :
    runEpoch env L 0 (initState model sched) = some st := by
  rw [trainLoop, runEpochs_succ] at h
  cases heq : runEpoch env L 0 (initState model sched) with
  | none => rw [heq] at h; exact absurd h (by simp)
  | some st1 =>
      rw [heq, Option.some_bind] at h
      simp only [runEpochs] at h
      exact h


lemma runEpochs_isSome {W S : Type} (env : Env W S) (L : Loaders)
    (hT : L.trainSize ≠ 0) (hV : L.valSize ≠ 0) :
    ∀ (n epoch : Nat) (st : LoopState W S),
      (runEpochs env L epoch n st).isSome = true
  | 0, _, _ => by simp [runEpochs]
  | n + 1, epoch, st => by
      rw [runEpochs_succ, runEpoch_eq_bind,
        runPhaseStep_train_char env L epoch st hT, Option.some_bind,
        runPhaseStep_val_char env L epoch _ hV, Option.some_bind]
      exact runEpochs_isSome env L hT hV n (epoch + 1) _

/-- C4: in every batch the forward pass runs under a gradient-tracking flag
equal to `phase == Train` (one forward event per batch), backward and
optimizer-step events occur only in the train phase, and the weights are
mutated exclusively by the optimizer step: a validation pass returns them
unchanged, and a train pass returns exactly the fold of the optimizer update
over the batches. -/
theorem grad_policy_and_param_frame {W S : Type} (env : Env W S)
    (phase : Phase) (w : W) (bs : List Batch) :
    (runBatches env phase w bs).events.all (batchEventOK phase) = true ∧
    ((runBatches env phase w bs).events.filter Event.isForward).length =
      bs.length ∧
    (runBatches env Phase.val w bs).weights = w ∧
    (runBatches env Phase.train w bs).weights = bs.foldl env.optStep w :=
  ⟨runBatches_events_ok env phase w bs, runBatches_forward_count env phase w bs,
    runBatches_weights_val env w bs, runBatches_weights_train env w bs⟩

/-- C5: `train_model` with `n_epochs = 0` never runs the loop body: it
succeeds, returns the untouched initial model, keeps `best_acc = 0.0` with
the tracker snapshot equal to the initial weights, writes nothing to disk
and emits no events. -/
theorem zero_epochs_noop {W S : Type} (env : Env W S) (L : Loaders)
    (model : W) (sched : S) :
    trainLoop env L model sched 0 = some (initState model sched) ∧
    train_model env L model sched 0 = some model ∧
    (initState model sched : LoopState W S).bestAcc = 0 ∧
    (initState model sched : LoopState W S).bestWts = model ∧
    (initState model sched : LoopState W S).disk = none ∧
    countSaves (initState model sched : LoopState W S).events = 0 :=
  ⟨rfl, rfl, rfl, rfl, rfl, rfl⟩

/-- C6: `train_model` returns the final in-memory weights of the last epoch,
never the tracked best snapshot: whenever the two differ, the returned value
is not the best snapshot. -/
theorem returns_final_not_best {W S : Type} (env : Env W S) (L : Loaders)
    (model : W) (sched : S) (n : Nat) (st : LoopState W S)
    (h : trainLoop env L model sched n = some st) :
    train_model env L model sched n = some st.weights ∧
    (st.weights ≠ st.bestWts →
      train_model env L model sched n ≠ some st.bestWts) := by
  constructor
  · rw [train_model, h]
    rfl
  · intro hne hcontra
    rw [train_model, h] at hcontra
    exact hne (Option.some.inj (by simpa using hcontra))

/-- Witness for C6: a two-epoch run of `envB` in which the final weights (2)
differ from the best snapshot (1), and `train_model` returns the final
weights. -/
theorem returns_final_not_best_witness :
    train_model envB loaders0 0 1 2 = some stB.weights ∧
    stB.weights ≠ stB.bestWts := by
  refine ⟨(returns_final_not_best envB loaders0 0 1 2 stB ?_).1, ?_⟩
  · norm_num [stB, trainLoop, runEpochs, runEpoch, runPhaseStep, runBatches,
      runBatch, epoch_metrics, initState, envB, loaders0, Loaders.batches,
      Loaders.dsize]
  · norm_num [stB, trainLoop, runEpochs, runEpoch, runPhaseStep, runBatches,
      runBatch, epoch_metrics, initState, envB, loaders0, Loaders.batches,
      Loaders.dsize]

/-- C7: with `feat_extract = true`, `initialize_model` freezes every backbone
parameter before replacing the final layer, so the fresh final layer still
tracks gradients; for any `feat_extract` the replacement layer has output
width `n_classes` and input width equal to the backbone's feature width,
read from the final layer that existed before the replacement. -/
theorem initialize_model_freeze_then_replace (current_model : Bool → Model)
    (n_classes : Nat) (use_pretrained : Bool) :
    (initialize_model current_model n_classes true use_pretrained).backbone.all
      (fun p => ! p.requires_grad) = true ∧
    (initialize_model current_model n_classes true use_pretrained).fc.requires_grad
      = true ∧
    (∀ feat_extract : Bool,
      (initialize_model current_model n_classes feat_extract use_pretrained).fc.out_features
        = n_classes) ∧
    (∀ feat_extract : Bool,
      (initialize_model current_model n_classes feat_extract use_pretrained).fc.in_features
        = (current_model use_pretrained).fc.in_features) := by
  refine ⟨?_, rfl, ?_, ?_⟩
  · simp [initialize_model, set_parameter_requires_grad]
  · intro feat_extract
    cases feat_extract <;> rfl
  · intro feat_extract
    cases feat_extract <;> rfl

/-- C8: over a non-empty split whose per-batch losses are non-negative and
whose per-batch correct counts are bounded by the batch size, with the
split's batches covering the dataset, the epoch metrics succeed with
`epoch_loss ≥ 0` and `epoch_acc ∈ [0, 1]`. -/
theorem epoch_metrics_bounds {W S : Type} (env : Env W S) (phase : Phase)
    (w : W) (bs : List Batch) (dsize : Nat)
    (hloss : ∀ w b, 0 ≤ env.criterion w b)
    (hcorr : ∀ w b, env.corrects w b ≤ b.size)
    (hsum : (bs.map Batch.size).sum = dsize) (hd : dsize ≠ 0) :
    ∃ epoch_loss epoch_acc,
      epoch_metrics (runBatches env phase w bs).running_loss
        (runBatches env phase w bs).running_corrects dsize =
        some (epoch_loss, epoch_acc) ∧
      0 ≤ epoch_loss ∧ 0 ≤ epoch_acc ∧ epoch_acc ≤ 1 := by
  have hpos : (0 : ℚ) < (dsize : ℚ) := by
    exact_mod_cast Nat.pos_of_ne_zero hd
  refine ⟨(runBatches env phase w bs).running_loss / (dsize : ℚ),
    ((runBatches env phase w bs).running_corrects : ℚ) / (dsize : ℚ),
    by simp [epoch_metrics, hd], ?_, ?_, ?_⟩
  · exact div_nonneg (runBatches_loss_nonneg env phase w bs hloss)
      (le_of_lt hpos)
  · exact div_nonneg (Nat.cast_nonneg _) (le_of_lt hpos)
  · rw [div_le_one hpos]
    exact_mod_cast hsum ▸ runBatches_corrects_le env phase w bs hcorr

/-- Witness for C8: the bounds at a concrete run of `envA`'s validation
phase over one batch of two samples. -/
theorem epoch_metrics_bounds_witness :
    ∃ epoch_loss epoch_acc,
      epoch_metrics (runBatches envA Phase.val 0 [⟨2⟩]).running_loss
        (runBatches envA Phase.val 0 [⟨2⟩]).running_corrects 2 =
        some (epoch_loss, epoch_acc) ∧
      0 ≤ epoch_loss ∧ 0 ≤ epoch_acc ∧ epoch_acc ≤ 1 :=
  epoch_metrics_bounds envA Phase.val 0 [⟨2⟩] 2
    (fun _ _ => by norm_num [envA]) (fun _ _ => by norm_num [envA])
    (by simp) (by norm_num)

/-- C10: the per-phase metric computation divides by the split's dataset
size with no guard: it succeeds on any non-zero size (yielding exactly
`running_loss / size` and `running_corrects / size`), fails on an empty
split, and under the non-empty-splits precondition the whole loop never
hits the failure. -/
theorem dataset_size_division_guard {W S : Type} (env : Env W S)
    (L : Loaders) (model : W) (sched : S) (n : Nat) (running_loss : ℚ)
    (running_corrects dsize : Nat) (hd : dsize ≠ 0)
    (hT : L.trainSize ≠ 0) (hV : L.valSize ≠ 0) :
    epoch_metrics running_loss running_corrects dsize =
      some (running_loss / (dsize : ℚ), (running_corrects : ℚ) / (dsize : ℚ)) ∧
    epoch_metrics running_loss running_corrects 0 = none ∧
    (trainLoop env L model sched n).isSome = true :=
  ⟨by simp [epoch_metrics, hd], by simp [epoch_metrics],
    runEpochs_isSome env L hT hV n 0 _⟩

/-- Witness for C10 at concrete inputs: metrics defined for size 2,
undefined for size 0, and a concrete one-epoch loop succeeds. -/
theorem dataset_size_division_guard_witness :
    (epoch_metrics 5 3 2).isSome = true ∧
    epoch_metrics 5 3 0 = none ∧
    (trainLoop envA loaders0 0 1 1).isSome = true := by
  have h := dataset_size_division_guard envA loaders0 0 1 1 5 3 2
    (by norm_num) (by norm_num [loaders0]) (by norm_num [loaders0])
  exact ⟨by rw [h.1]; rfl, h.2.1, h.2.2⟩

/-- C9: the label map pairs exactly the class names (a permutation, no
duplicates) with exactly the indices `0, …, class_count - 1` (no gaps), and
the top-level script serializes it to the fixed filename `dict.pkl` exactly
once, before the training call. -/
theorem label_map_bijection_saved_once (c : List String) (h : c.Nodup) :
    ((class_to_idx c).map Prod.fst).Perm c ∧
    ((class_to_idx c).map Prod.fst).Nodup ∧
    (class_to_idx c).map Prod.snd = List.range c.length ∧
    script_trace = [TopEffect.savePickle "dict.pkl", TopEffect.trainCall] := by
  have hfst : (class_to_idx c).map Prod.fst =
      c.mergeSort (fun a b => a ≤ b) := by
    simp only [class_to_idx]
    exact List.map_fst_zip _ _ (by simp)
  have hsnd : (class_to_idx c).map Prod.snd =
      List.range (c.mergeSort (fun a b => a ≤ b)).length := by
    simp only [class_to_idx]
    exact List.map_snd_zip _ _ (by simp)
  have hperm : (c.mergeSort (fun a b => a ≤ b)).Perm c :=
    List.mergeSort_perm c _
  refine ⟨?_, ?_, ?_, rfl⟩
  · rw [hfst]
    exact hperm
  · rw [hfst]
    exact hperm.symm.nodup h
  · rw [hsnd, List.length_mergeSort]

/-- Witness for C9 on a concrete two-class layout. -/
theorem label_map_bijection_saved_once_witness :
    ((class_to_idx ["cat", "dog"]).map Prod.fst).Perm ["cat", "dog"] ∧
    ((class_to_idx ["cat", "dog"]).map Prod.fst).Nodup ∧
    (class_to_idx ["cat", "dog"]).map Prod.snd = List.range 2 ∧
    script_trace = [TopEffect.savePickle "dict.pkl", TopEffect.trainCall] :=
  label_map_bijection_saved_once ["cat", "dog"] (by simp)

/-- C1: across one epoch `best_acc` never decreases and the tracker
invariant is preserved; the on-disk snapshot changes only when the best
accuracy strictly improves, and then it is exactly the new best snapshot;
consequently any completed run satisfies the tracker invariant (the disk
holds the best snapshot and `best_acc` is the maximum validation accuracy
observed). -/
theorem best_tracker_monotone_and_disk_best {W S : Type} (env : Env W S)
    (L : Loaders) :
    (∀ (epoch : Nat) (st st' : LoopState W S),
      runEpoch env L epoch st = some st' →
      st.bestAcc ≤ st'.bestAcc ∧ (trackerInv st → trackerInv st') ∧
      (st'.disk ≠ st.disk →
        st'.disk = some st'.bestWts ∧ st.bestAcc < st'.bestAcc)) ∧
    (∀ (model : W) (sched : S) (n : Nat) (st : LoopState W S),
      trainLoop env L model sched n = some st →
      trackerInv st ∧ 0 ≤ st.bestAcc) := by
  constructor
  · exact fun epoch st st' h => runEpoch_tracker env L epoch st st' h
  · intro model sched n st h
    rw [trainLoop] at h
    obtain ⟨hinv, hle⟩ := runEpochs_tracker env L n 0 (initState model sched)
      st h (trackerInv_initState model sched)
    exact ⟨hinv, le_trans (by simp [initState]) hle⟩

/-- Witness for C1 on a concrete one-epoch run of `envA`. -/
theorem best_tracker_monotone_and_disk_best_witness :
    (initState 0 1 : LoopState Nat ℚ).bestAcc ≤ stA.bestAcc ∧
    trackerInv stA := by
  have h1 := (best_tracker_monotone_and_disk_best envA loaders0).1 0
    (initState 0 1) stA (by
      norm_num [stA, runEpoch, runPhaseStep, runBatches, runBatch,
        epoch_metrics, initState, envA, loaders0, Loaders.batches,
        Loaders.dsize])
  have h2 := (best_tracker_monotone_and_disk_best envA loaders0).2 0 1 1 stA
    (by
      norm_num [stA, trainLoop, runEpochs, runEpoch, runPhaseStep, runBatches,
        runBatch, epoch_metrics, initState, envA, loaders0, Loaders.batches,
        Loaders.dsize])
  exact ⟨h1.1, h2.1⟩

/-- C2 (counterexample): a one-epoch run whose first validation accuracy is
0 — which satisfies "validation accuracy ≥ 0" — performs no checkpoint
write: the claim that the first validation phase always writes for any
accuracy ≥ 0 is false, because the code compares with strict `>` against the
initial `best_acc = 0.0`. -/
theorem zero_val_acc_writes_no_checkpoint :
    (trainLoop env0 loaders0 0 1 1).map
      (fun st => (st.valAccHistory, st.disk, countSaves st.events)) =
      some ([0], none, 0) := by
  norm_num [trainLoop, runEpochs, runEpoch, runPhaseStep, runBatches, runBatch,
    epoch_metrics, initState, env0, loaders0, Loaders.batches, Loaders.dsize,
    countSaves, List.filter, Event.isSave]

/-- C2 (amended): with the tracker initialized to `best_acc = 0.0`, a
one-epoch run writes a checkpoint in its validation phase exactly when the
validation accuracy is strictly positive: one write when `0 < acc`, none
when `acc ≤ 0`. -/
theorem first_checkpoint_iff_positive_acc {W S : Type} (env : Env W S)
    (L : Loaders) (model : W) (sched : S) (st : LoopState W S) (a : ℚ)
    (h : trainLoop env L model sched 1 = some st)
    (ha : st.valAccHistory = [a]) :
    (0 < a → countSaves st.events = 1 ∧ st.disk ≠ none) ∧
    (a ≤ 0 → countSaves st.events = 0 ∧ st.disk = none) := by
  replace h := trainLoop_one_epoch env L model sched st h
  by_cases hT : L.trainSize = 0
  · rw [runEpoch, runPhaseStep_train_none env L 0 _ hT] at h
    exact absurd h (by simp)
  by_cases hV : L.valSize = 0
  · rw [runEpoch_eq_bind, runPhaseStep_train_char env L 0 _ hT,
      Option.some_bind, runPhaseStep_val_none env L 0 _ hV] at h
    exact absurd h (by simp)
  rw [runEpoch_eq_bind, runPhaseStep_train_char env L 0 _ hT,
    Option.some_bind, runPhaseStep_val_char env L 0 _ hV] at h
  obtain rfl := Option.some.inj h
  simp only [initState, List.nil_append] at ha ⊢
  simp only [List.cons.injEq, and_true] at ha
  subst ha
  constructor
  · intro h0
    refine ⟨?_, ?_⟩
    · simp [h0, initState, countSaves, List.filter_append,
        filter_isSave_batches, Event.isSave, List.filter]
    · simp [h0, initState]
  · intro hle
    have h0 := not_lt.mpr hle
    refine ⟨?_, ?_⟩
    · simp [h0, initState, countSaves, List.filter_append,
        filter_isSave_batches, Event.isSave, List.filter]
    · simp [h0, initState]

/-- Witness for the amended C2: a concrete one-epoch run with validation
accuracy 1 performs exactly one checkpoint write. -/
theorem first_checkpoint_iff_positive_acc_witness :
    countSaves stA.events = 1 ∧ stA.disk ≠ none := by
  have h := first_checkpoint_iff_positive_acc envA loaders0 0 1 stA 1
    (by norm_num [stA, trainLoop, runEpochs, runEpoch, runPhaseStep,
      runBatches, runBatch, epoch_metrics, initState, envA, loaders0,
      Loaders.batches, Loaders.dsize])
    (by norm_num [stA, runEpoch, runPhaseStep, runBatches, runBatch,
      epoch_metrics, initState, envA, loaders0, Loaders.batches,
      Loaders.dsize])
  exact h.1 (by norm_num)

/-- C3 (counterexample): in a concrete one-epoch run the value recorded
under the `lr` tag is the pre-step rate 1, while the scheduler state the
next epoch's train phase would use yields rate 1/2: the recorded value does
not reflect the post-step learning rate, because `get_last_lr` is read
before `scheduler.step()`. -/
theorem lr_recorded_is_not_post_step_rate :
    (trainLoop envA loaders0 0 1 1).map
      (fun st => (lrValues st.events, envA.getLastLR st.sched)) =
      some ([1], 1 / 2) ∧ (1 : ℚ) ≠ 1 / 2 := by
  constructor
  · simp [trainLoop, runEpochs, runEpoch, runPhaseStep, runBatches, runBatch,
      epoch_metrics, initState, envA, loaders0, Loaders.batches,
      Loaders.dsize, lrValues, List.filterMap]
  · norm_num

/-- C3 (amended): each train phase appends its batch events (which contain
no scheduler step) and then exactly `record lr; schedStep; record loss;
record acc` — the scheduler is stepped exactly once per epoch, after all
train batches, the per-epoch scheduler-step count grows by exactly one, and
the recorded learning rate is the pre-step rate `getLastLR` of the
scheduler state the epoch ran with, recorded immediately before the step;
the validation phase never steps the scheduler. -/
theorem scheduler_once_per_epoch_lr_prestep {W S : Type} (env : Env W S)
    (L : Loaders) (epoch : Nat) (st : LoopState W S) :
    (∀ st', runPhaseStep env L epoch Phase.train st = some st' →
      st'.events = st.events ++
        (runBatches env Phase.train st.weights L.trainBatches).events ++
        [Event.record "lr" (env.getLastLR st.sched) (epoch + 1),
         Event.schedStep,
         Event.record "training loss"
           ((runBatches env Phase.train st.weights L.trainBatches).running_loss /
             (L.trainSize : ℚ)) (epoch + 1),
         Event.record "training acc"
           (((runBatches env Phase.train st.weights L.trainBatches).running_corrects : ℚ) /
             (L.trainSize : ℚ)) (epoch + 1)] ∧
      countSched (runBatches env Phase.train st.weights L.trainBatches).events
        = 0 ∧
      countSched st'.events = countSched st.events + 1 ∧
      st'.sched = env.schedStep st.sched) ∧
    (∀ st', runPhaseStep env L epoch Phase.val st = some st' →
      countSched st'.events = countSched st.events) := by
  constructor
  · intro st' h
    by_cases hT : L.trainSize = 0
    · rw [runPhaseStep_train_none env L epoch st hT] at h
      exact absurd h (by simp)
    rw [runPhaseStep_train_char env L epoch st hT] at h
    obtain rfl := Option.some.inj h
    refine ⟨rfl, countSched_batches env Phase.train st.weights L.trainBatches,
      ?_, rfl⟩
    simp [countSched, List.filter_append, filter_isSchedStep_batches,
      Event.isSchedStep, List.filter]
  · intro st' h
    by_cases hV : L.valSize = 0
    · rw [runPhaseStep_val_none env L epoch st hV] at h
      exact absurd h (by simp)
    rw [runPhaseStep_val_char env L epoch st hV] at h
    obtain rfl := Option.some.inj h
    by_cases hlt : st.bestAcc <
        ((runBatches env Phase.val st.weights L.valBatches).running_corrects : ℚ) /
          (L.valSize : ℚ) <;>
      simp [hlt, countSched, List.filter_append, filter_isSchedStep_batches,
        Event.isSchedStep, List.filter]

/-- Witness for the amended C3 on `envA`'s first epoch: the train phase
adds exactly one scheduler step and the validation phase adds none. -/
theorem scheduler_once_per_epoch_lr_prestep_witness :
    countSched stT.events =
      countSched (initState 0 1 : LoopState Nat ℚ).events + 1 ∧
    countSched stA.events = countSched stT.events := by
  have h1 := (scheduler_once_per_epoch_lr_prestep envA loaders0 0
    (initState 0 1)).1 stT (by
      norm_num [stT, runPhaseStep, runBatches, runBatch, epoch_metrics,
        initState, envA, loaders0, Loaders.batches, Loaders.dsize])
  have h2 := (scheduler_once_per_epoch_lr_prestep envA loaders0 0 stT).2 stA
    (by
      norm_num [stA, stT, runEpoch, runPhaseStep, runBatches, runBatch,
        epoch_metrics, initState, envA, loaders0, Loaders.batches,
        Loaders.dsize])
  exact ⟨h1.2.2.1, h2⟩
